import Mathlib

/-!
Verification of the dlisio frame-data decoder (`read_fdata`) and the
`fingerprint` entry point, as bound in the python extension module.

The decoder walks each record's byte span: an OBNAME prefix, then per row a
varint frame number, a pre-format span, the per-field format string, and a
post-format span.  Field values are written into the caller's destination
buffer; heap-object slots (python objects) are overwritten by the
`swap_pointer` protocol (release the old reference, install the new one).

Bytes are modelled as `Nat` values reduced mod 256 at every access.  Reads
past a record's end (which in the C++ are out-of-bounds memory reads) return
0 and raise an `oob` flag in the output, so that the presence or absence of
a bounds check on each path is observable.  Destination-buffer writes are
modelled at slot granularity: each completed row is the list of slot values
written for it, in order.
-/

namespace Dlisio

/-- Read one byte of a record's data; accesses past the end yield 0 (the
value is unspecified garbage in the C++; all theorems that depend on data
content stay within bounds). Bytes are reduced mod 256 to model `char`. -/
def rd (data : List Nat) (i : Nat) : Nat := data.getD i 0 % 256

/-- Byte slice of length `n` starting at `i`, with out-of-range reads as 0. -/
def slice (data : List Nat) (i n : Nat) : List Nat :=
  (List.range n).map (fun k => rd data (i + k))

/-- Modelled from the spec: `dlis_uvari` is part of the external primitive
codec catalog ("a varint-encoded length/integer").  The number of bytes a
UVARI occupies, determined by the two top bits of its first byte. -/
def uvariLen (b : Nat) : Nat :=
  if b < 128 then 1 else if b < 192 then 2 else 4

/-- Modelled from the spec: value decoded by `dlis_uvari` at offset `i`. -/
def uvariValN (data : List Nat) (i : Nat) : Nat :=
  let b := rd data i
  if b < 128 then b
  else if b < 192 then (b - 128) * 256 + rd data (i + 1)
  else (b - 192) * 2 ^ 24 + rd data (i + 1) * 2 ^ 16 +
       rd data (i + 2) * 2 ^ 8 + rd data (i + 3)

/-- Modelled from the spec: byte size consumed by `dlis_ident` at `i`
(one length byte ≤ 255, then that many raw characters). -/
def identSize (data : List Nat) (i : Nat) : Nat := 1 + rd data i

/-- Modelled from the spec: byte size consumed by `dlis_obname` at `i`
(origin varint, one copy byte, then a bounded identifier). -/
def obnameSize (data : List Nat) (i : Nat) : Nat :=
  let ol := uvariLen (rd data i)
  ol + 1 + identSize data (i + ol + 1)

/-- Modelled from the spec: the DTIME year-origin bias applied by
`dlis_year` (year component is stored relative to 1900). -/
def dlisYear (y : Nat) : Int := 1900 + y

/-- Representation codes that `read_fdata` handles through the generic
`dlis_packflen`/`dlis_packf` path (every code without a dedicated branch). -/
inductive GenCode
  | fshort | fsingl | isingl | vsingl | fdoubl | csingl | cdoubl
  | sshort | snorm | slong | ushortc | unorm | ulong
  | uvaric | originc | statusc
deriving DecidableEq, Repr

/-- Format-string characters of `read_fdata`: the codes with dedicated
branches, plus `gen` for everything routed through `dlis_packf`. -/
inductive FmtCode
  | fsing1 | fsing2 | fdoub1 | fdoub2
  | identc | unitsc | asciic | obnamec | objrefc | attrefc | dtimec
  | gen (g : GenCode)
deriving DecidableEq, Repr

/-- Modelled from the spec: source byte widths reported by `dlis_packflen`
for generic-path codes.  UVARI/ORIGIN are varints whose width is read from
the first byte; the second component records whether that sizing read went
past the record's end. -/
def genSrcSize (g : GenCode) (data : List Nat) (i : Nat) : Nat × Bool :=
  match g with
  | .fshort => (2, false)
  | .fsingl => (4, false)
  | .isingl => (4, false)
  | .vsingl => (4, false)
  | .fdoubl => (8, false)
  | .csingl => (8, false)
  | .cdoubl => (16, false)
  | .sshort => (1, false)
  | .snorm => (2, false)
  | .slong => (4, false)
  | .ushortc => (1, false)
  | .unorm => (2, false)
  | .ulong => (4, false)
  | .uvaric => (uvariLen (rd data i), decide (data.length < i + 1))
  | .originc => (uvariLen (rd data i), decide (data.length < i + 1))
  | .statusc => (1, false)

/-- Modelled from the spec: source byte width reported by `dlis_packflen`
for one format character, together with a flag recording whether the bytes
read to determine that width lie past the record's end. -/
def fmtSrcSize (f : FmtCode) (data : List Nat) (i : Nat) : Nat × Bool :=
  match f with
  | .fsing1 => (8, false)
  | .fsing2 => (12, false)
  | .fdoub1 => (16, false)
  | .fdoub2 => (24, false)
  | .identc => (identSize data i, decide (data.length < i + 1))
  | .unitsc => (identSize data i, decide (data.length < i + 1))
  | .asciic =>
      let vl := uvariLen (rd data i)
      (vl + uvariValN data i, decide (data.length < i + vl))
  | .obnamec => (obnameSize data i, decide (data.length < i + uvariLen (rd data i) + 2))
  | .objrefc =>
      let tl := identSize data i
      (tl + obnameSize data (i + tl),
       decide (data.length < i + tl + uvariLen (rd data (i + tl)) + 2))
  | .attrefc =>
      let tl := identSize data i
      let ol := obnameSize data (i + tl)
      (tl + ol + identSize data (i + tl + ol),
       decide (data.length < i + tl + ol + 1))
  | .dtimec => (8, false)
  | .gen g => genSrcSize g data i

/-- Modelled from the spec: `dlis_packflen` over a whole format string:
total source bytes consumed, and whether any sizing read went past end. -/
def packflenSrc : List FmtCode → List Nat → Nat → Nat × Bool
  | [], _, _ => (0, false)
  | f :: fs, data, i =>
    let n := fmtSrcSize f data i
    let m := packflenSrc fs data (i + n.1)
    (n.1 + m.1, n.2 || m.2)

/-- A python datetime value as produced by `PyDateTime_FromDateAndTime`:
year, month, day, hour, minute, second, microsecond.  There is no
timezone field. -/
structure PyDateTimeVal where
  Y : Int
  M : Nat
  D : Nat
  H : Nat
  MN : Nat
  S : Nat
  US : Nat
deriving DecidableEq, Repr

/-- Modelled from the spec: `PyDateTime_FromDateAndTime` (CPython C API)
returns a fresh datetime object, or fails (NULL) for out-of-range
components. -/
def pyDateTimeFromDateAndTime (y : Int) (m d hh mn s us : Nat) :
    Option PyDateTimeVal :=
  if 1 ≤ y ∧ y ≤ 9999 ∧ 1 ≤ m ∧ m ≤ 12 ∧ 1 ≤ d ∧ d ≤ 31 ∧
     hh ≤ 23 ∧ mn ≤ 59 ∧ s ≤ 59 ∧ us < 1000000 then
    some ⟨y, m, d, hh, mn, s, us⟩
  else none

/-- Heap-allocated python object payloads created by the decoder's
dedicated branches. -/
inductive ObjVal
  | placeholder
  | pyTuple (src : List Nat)
  | pyStr (bytes : List Nat)
  | pyObname (org : Nat) (copy : Nat) (id : List Nat)
  | pyObjref (ty : List Nat) (org : Nat) (copy : Nat) (id : List Nat)
  | pyAttref (ty : List Nat) (org : Nat) (copy : Nat) (id : List Nat)
               (label : List Nat)
  | pyDatetime (d : PyDateTimeVal)
deriving DecidableEq, Repr

/-- One destination-buffer column slot value. -/
inductive PSlot
  | heapVal (v : ObjVal)
  | inlineChars (cs : List Nat)
  | inlineBytes (g : GenCode) (src : List Nat)
deriving DecidableEq, Repr

/-- Widening of one raw `char` to a `std::uint32_t` code unit, as in the
IDENT branch (`std::uint32_t(tmp[i])` with `char` signed: bytes ≥ 0x80
sign-extend). -/
def widen (c : Nat) : Nat :=
  if c < 128 then c else 2 ^ 32 - 256 + c

/-- The exception values `read_fdata` can raise, mirroring the C++
exception classes thrown in the source. -/
inductive DlError
  | runtimeError (msg : String)
  | notImplemented (msg : String)
  | pyError
  | indexError
deriving DecidableEq, Repr

/-- Message of the `assert_overflow` bounds guard. -/
def corruptMsg : String := "corrupted record: fmtstr would read past end"

/-- Message thrown when a record holds more than one row. -/
def multiframeMsg : String := "multiple frames in one FDATA"

/-- Message thrown for an encrypted record. -/
def encryptedMsg : String := "encrypted FDATA record"

/-- Modelled from the spec: message of the `std::runtime_error` that the
pybind11 `py::str` constructor throws when `PyUnicode_FromStringAndSize`
fails (the same throw `maybe_decode` catches for attribute values). -/
def pystrFailMsg : String := "Could not allocate string object!"

/-- A UTF-8 continuation byte (0x80-0xBF). -/
def contB (c : Nat) : Bool := 128 ≤ c && c < 192

/-- Second-byte range of a three-byte UTF-8 sequence led by `b`
(0xE0 requires 0xA0-0xBF, 0xED excludes surrogates with 0x80-0x9F). -/
def midB3 (b c : Nat) : Bool :=
  if b = 224 then 160 ≤ c && c < 192
  else if b = 237 then 128 ≤ c && c < 160
  else contB c

/-- Second-byte range of a four-byte UTF-8 sequence led by `b`
(0xF0 requires 0x90-0xBF, 0xF4 caps at 0x8F). -/
def midB4 (b c : Nat) : Bool :=
  if b = 240 then 144 ≤ c && c < 192
  else if b = 244 then 128 ≤ c && c < 144
  else contB c

/-- Modelled from the spec: strict UTF-8 validity as decoded by CPython's
`PyUnicode_FromStringAndSize` (which `py::str(ptr, len)` calls): no
stray continuation bytes, no overlong forms (0xC0/0xC1 rejected), no
surrogates, nothing above U+10FFFF (0xF5 and up rejected). -/
def validUtf8 : List Nat → Bool
  | [] => true
  | b :: rest =>
    if b < 128 then validUtf8 rest
    else if b < 194 then false
    else if b < 224 then
      match rest with
      | c1 :: rest2 => contB c1 && validUtf8 rest2
      | _ => false
    else if b < 240 then
      match rest with
      | c1 :: c2 :: rest2 => midB3 b c1 && contB c2 && validUtf8 rest2
      | _ => false
    else if b < 245 then
      match rest with
      | c1 :: c2 :: c3 :: rest2 =>
          midB4 b c1 && contB c2 && contB c3 && validUtf8 rest2
      | _ => false
    else false

/-- An effect a field decode has on the heap-object slots: `swap` is the
`swap_pointer` protocol (release the slot's occupant, install a fresh
object); `release` is a bare `Py_DECREF` of the occupant with nothing
installed — the DTIME branch performs it before its construction throw. -/
inductive HeapOp
  | swap (v : ObjVal)
  | release
deriving DecidableEq, Repr

/-- Result of decoding one field of the per-field format string: error (if
any), cursor after the field, slot value written (none when the decode
errored before writing), heap-slot effects the field performed, and
whether the decode consumed bytes past the record's end without a bounds
guard having rejected it first. -/
structure FieldOut where
  err : Option DlError
  ptr : Nat
  slot : Option PSlot
  heap : List HeapOp
  oob : Bool
deriving DecidableEq, Repr

/-- One per-field format character of `read_fdata`, lines 356-599 of the
source: the dedicated branches decode and write without any bounds check;
every remaining code goes through `dlis_packflen` + `assert_overflow` +
`dlis_packf`.  The ASCII branch builds `py::str(ptr, len)` before its
slot write: invalid UTF-8 makes that constructor throw a runtime error,
so nothing is written and the slot occupant is untouched.  The DTIME
branch `Py_DECREF`s the occupant first and only then constructs the
datetime, so a construction failure has already released the occupant. -/
def decodeField (f : FmtCode) (data : List Nat) (p : Nat) : FieldOut :=
  match f with
  | .fsing1 =>
      let v : ObjVal := .pyTuple (slice data p 8)
      ⟨none, p + 8, some (.heapVal v), [.swap v], decide (data.length < p + 8)⟩
  | .fsing2 =>
      let v : ObjVal := .pyTuple (slice data p 12)
      ⟨none, p + 12, some (.heapVal v), [.swap v],
       decide (data.length < p + 12)⟩
  | .fdoub1 =>
      let v : ObjVal := .pyTuple (slice data p 16)
      ⟨none, p + 16, some (.heapVal v), [.swap v],
       decide (data.length < p + 16)⟩
  | .fdoub2 =>
      let v : ObjVal := .pyTuple (slice data p 24)
      ⟨none, p + 24, some (.heapVal v), [.swap v],
       decide (data.length < p + 24)⟩
  | .identc =>
      let len := rd data p
      let cs := slice data (p + 1) len
      ⟨none, p + 1 + len,
       some (.inlineChars (cs.map widen ++ List.replicate (255 - len) 0)),
       [], decide (data.length < p + 1 + len)⟩
  | .unitsc =>
      let len := rd data p
      let cs := slice data (p + 1) len
      ⟨none, p + 1 + len,
       some (.inlineChars (cs.map widen ++ List.replicate (255 - len) 0)),
       [], decide (data.length < p + 1 + len)⟩
  | .asciic =>
      let vl := uvariLen (rd data p)
      let len := uvariValN data p
      let bytes := slice data (p + vl) len
      if validUtf8 bytes then
        ⟨none, p + vl + len, some (.heapVal (.pyStr bytes)),
         [.swap (.pyStr bytes)], decide (data.length < p + vl + len)⟩
      else
        ⟨some (.runtimeError pystrFailMsg), p + vl, none, [],
         decide (data.length < p + vl + len)⟩
  | .obnamec =>
      let ol := uvariLen (rd data p)
      let org := uvariValN data p
      let copy := rd data (p + ol)
      let il := rd data (p + ol + 1)
      let idb := slice data (p + ol + 2) il
      let v : ObjVal := .pyObname org copy idb
      ⟨none, p + ol + 2 + il, some (.heapVal v), [.swap v],
       decide (data.length < p + ol + 2 + il)⟩
  | .objrefc =>
      let tl := rd data p
      let ty := slice data (p + 1) tl
      let q := p + 1 + tl
      let ol := uvariLen (rd data q)
      let org := uvariValN data q
      let copy := rd data (q + ol)
      let il := rd data (q + ol + 1)
      let idb := slice data (q + ol + 2) il
      let v : ObjVal := .pyObjref ty org copy idb
      ⟨none, q + ol + 2 + il, some (.heapVal v), [.swap v],
       decide (data.length < q + ol + 2 + il)⟩
  | .attrefc =>
      let tl := rd data p
      let ty := slice data (p + 1) tl
      let q := p + 1 + tl
      let ol := uvariLen (rd data q)
      let org := uvariValN data q
      let copy := rd data (q + ol)
      let il := rd data (q + ol + 1)
      let idb := slice data (q + ol + 2) il
      let r := q + ol + 2 + il
      let ll := rd data r
      let lab := slice data (r + 1) ll
      let v : ObjVal := .pyAttref ty org copy idb lab
      ⟨none, r + 1 + ll, some (.heapVal v), [.swap v],
       decide (data.length < r + 1 + ll)⟩
  | .dtimec =>
      let y := rd data p
      let tzm := rd data (p + 1)
      let m := tzm % 16
      let d := rd data (p + 2)
      let hh := rd data (p + 3)
      let mn := rd data (p + 4)
      let s := rd data (p + 5)
      let ms := rd data (p + 6) * 256 + rd data (p + 7)
      match pyDateTimeFromDateAndTime (dlisYear y) m d hh mn s (ms * 1000) with
      | none => ⟨some .pyError, p + 8, none, [.release],
                 decide (data.length < p + 8)⟩
      | some dv =>
          let v : ObjVal := .pyDatetime dv
          ⟨none, p + 8, some (.heapVal v), [.swap v],
           decide (data.length < p + 8)⟩
  | .gen g =>
      if data.length < p + (genSrcSize g data p).1 then
        ⟨some (.runtimeError corruptMsg), p, none, [], (genSrcSize g data p).2⟩
      else
        ⟨none, p + (genSrcSize g data p).1,
         some (.inlineBytes g (slice data p (genSrcSize g data p).1)), [],
         (genSrcSize g data p).2⟩

/-- Result of decoding the full per-field format string for one row. -/
structure FieldsOut where
  err : Option DlError
  ptr : Nat
  slots : List PSlot
  heap : List HeapOp
  oob : Bool
deriving DecidableEq, Repr

/-- The `for (auto* f = fmt; *f; ++f)` loop: decode each format character
in order, stopping at the first error.  Slot values written and heap-slot
effects performed before the error remain performed (no rollback). -/
def decodeFields : List FmtCode → List Nat → Nat → FieldsOut
  | [], _, p => ⟨none, p, [], [], false⟩
  | f :: fs, data, p =>
    let o := decodeField f data p
    match o.err with
    | some e => ⟨some e, o.ptr, o.slot.toList, o.heap, o.oob⟩
    | none =>
        let rest := decodeFields fs data o.ptr
        ⟨rest.err, rest.ptr, o.slot.toList ++ rest.slots,
         o.heap ++ rest.heap, o.oob || rest.oob⟩

/-- Result of one iteration body of the row loop (frame number, pre span,
fields, post span), before the record-exhausted check. -/
structure RowOut where
  err : Option DlError
  ptr : Nat
  rows : List (List PSlot)
  heap : List HeapOp
  oob : Bool
  newExpected : Option Int
deriving DecidableEq, Repr

/-- Lines 336-604 of the source: decode the row's varint frame number (the
comparison against `expected_frameno` is present but its warning is a
TODO and emits nothing), consume the pre-format span behind
`assert_overflow`, decode the per-field formats, set
`expected_frameno = frameno + 1`, and consume the post-format span behind
`assert_overflow`.  A completed row's slots are in the destination buffer
even when the post-span guard then fails. -/
def decodeRow (pre fmt post : List FmtCode) (data : List Nat) (ptr : Nat) :
    RowOut :=
  let flen := uvariLen (rd data ptr)
  let frameno : Int := uvariValN data ptr
  let oob1 := decide (data.length < ptr + flen)
  let p1 := ptr + flen
  let pre1 := packflenSrc pre data p1
  if data.length < p1 + pre1.1 then
    ⟨some (.runtimeError corruptMsg), p1, [], [], oob1 || pre1.2, none⟩
  else
    let fo := decodeFields fmt data (p1 + pre1.1)
    match fo.err with
    | some e => ⟨some e, fo.ptr, [], fo.heap, oob1 || pre1.2 || fo.oob, none⟩
    | none =>
        let post1 := packflenSrc post data fo.ptr
        if data.length < fo.ptr + post1.1 then
          ⟨some (.runtimeError corruptMsg), fo.ptr, [fo.slots], fo.heap,
           oob1 || pre1.2 || fo.oob || post1.2, some (frameno + 1)⟩
        else
          ⟨none, fo.ptr + post1.1, [fo.slots], fo.heap,
           oob1 || pre1.2 || fo.oob || post1.2, some (frameno + 1)⟩

/-- Result of decoding one whole record (and of the row loop). -/
structure RecOut where
  err : Option DlError
  rows : List (List PSlot)
  heap : List HeapOp
  oob : Bool
  newExpected : Option Int
deriving DecidableEq, Repr

/-- The `while (ptr < end)` loop of `read_fdata`: decode a row, then fail
with `not_implemented` if the cursor is not exactly at the record's end
(line 606).  The loop can only continue when the cursor equals the end,
so it terminates immediately; one unit of fuel per remaining byte is
always sufficient. -/
def rowLoop (pre fmt post : List FmtCode) (data : List Nat) :
    Nat → Nat → RecOut
  | 0, _ => ⟨none, [], [], false, none⟩
  | fuel + 1, ptr =>
    if ptr < data.length then
      let r := decodeRow pre fmt post data ptr
      match r.err with
      | some e => ⟨some e, r.rows, r.heap, r.oob, r.newExpected⟩
      | none =>
          if r.ptr ≠ data.length then
            ⟨some (.notImplemented multiframeMsg), r.rows, r.heap, r.oob,
             r.newExpected⟩
          else
            let rest := rowLoop pre fmt post data fuel r.ptr
            ⟨rest.err, r.rows ++ rest.rows, r.heap ++ rest.heap,
             r.oob || rest.oob,
             match rest.newExpected with
             | some v => some v
             | none => r.newExpected⟩
    else ⟨none, [], [], false, none⟩

/-- A physical record as handed to the decoder.  Modelled from the spec:
`dl::record` is external; it exposes its raw bytes and an encrypted flag. -/
structure Record where
  data : List Nat
  encrypted : Bool
deriving DecidableEq, Repr

/-- Decode one record, lines 322-611: reject encrypted records before
touching any byte, consume the OBNAME prefix (no bounds check), then run
the row loop. -/
def recordOut (pre fmt post : List FmtCode) (rec : Record) : RecOut :=
  if rec.encrypted then
    ⟨some (.notImplemented encryptedMsg), [], [], false, none⟩
  else
    let data := rec.data
    let psz := obnameSize data 0
    let r := rowLoop pre fmt post data (data.length + 1) psz
    ⟨r.err, r.rows, r.heap, decide (data.length < psz) || r.oob,
     r.newExpected⟩

/-- Decoder state threaded across records: completed rows of the
destination buffer, the out-of-bounds-read flag, `expected_frameno`, the
heap (allocated objects and their reference counts, indexed by allocation
order), the previous occupants of the heap-object slots the call will
write (the caller's buffer holds releasable placeholders), and the
warnings channel (`runtime_warning`), which `read_fdata` never uses. -/
structure DecSt where
  rows : List (List PSlot)
  oob : Bool
  expected_frameno : Int
  objs : List ObjVal
  rc : List Int
  occupants : List Nat
  warnings : List String
deriving DecidableEq, Repr

/-- Fresh decoder state: `expected_frameno` starts at 1; the heap holds
the caller's placeholder object (id 0) with one live reference. -/
def initSt (occ : List Nat) : DecSt :=
  ⟨[], false, 1, [.placeholder], [1], occ, []⟩

/-- The `swap_pointer` lambda (lines 403-411) and the identical inline
DTIME slot write (lines 583-589): read the reference occupying the slot,
`Py_DECREF` it, then install the freshly created object, which ends with
exactly one owning reference (its creation reference is transferred to
the slot). -/
def swapPointer (st : DecSt) (v : ObjVal) : DecSt :=
  let old := st.occupants.headD 0
  { st with
    objs := st.objs ++ [v]
    rc := (st.rc.set old (st.rc.getD old 0 - 1)) ++ [1]
    occupants := st.occupants.tail }

/-- The bare `Py_DECREF` of the slot occupant the DTIME branch performs
(line 585) before constructing the datetime: on a construction failure
the occupant's reference has already been released, with nothing
installed in its place. -/
def decrefOccupant (st : DecSt) : DecSt :=
  let old := st.occupants.headD 0
  { st with rc := st.rc.set old (st.rc.getD old 0 - 1) }

/-- Apply one heap-slot effect of a field decode to the decoder state. -/
def applyHeapOp (st : DecSt) : HeapOp → DecSt
  | .swap v => swapPointer st v
  | .release => decrefOccupant st

/-- Apply one record's decode output to the decoder state: perform its
heap-slot effects (`swap_pointer` writes and the DTIME failure release),
append its completed rows, accumulate the out-of-bounds flag, and update
`expected_frameno`.  The warnings channel is untouched: the
sequence-mismatch warning in the source is a TODO. -/
def applyRec (st : DecSt) (o : RecOut) : DecSt :=
  let st1 := o.heap.foldl applyHeapOp st
  { st1 with
    rows := st.rows ++ o.rows
    oob := st.oob || o.oob
    expected_frameno := o.newExpected.getD st.expected_frameno }

/-- The entry point `read_fdata` (lines 298-613): for each caller-supplied
record index in order, fetch the record (`file.at` fails for an invalid
index) and decode it; the first error aborts the whole operation, keeping
everything already written. -/
def readFdata (pre fmt post : List FmtCode) (file : List Record) :
    List Nat → DecSt → DecSt × Option DlError
  | [], st => (st, none)
  | i :: rest, st =>
    match file[i]? with
    | none => (st, some .indexError)
    | some rec =>
        let o := recordOut pre fmt post rec
        let st' := applyRec st o
        match o.err with
        | some e => (st', some e)
        | none => readFdata pre fmt post file rest st'

/-- An OBJREF identity as built by the `fingerprint` entry point. -/
structure ObjrefId where
  ty : String
  org : Int
  copy : Nat
  id : String
deriving DecidableEq, Repr

/-- Modelled from the spec: `dl::objref::fingerprint` is external; the
spec gives the canonical form `type-origin-copy-id`. -/
def objrefFingerprintS (r : ObjrefId) : String :=
  r.ty ++ "-" ++ toString r.org ++ "-" ++ toString r.copy ++ "-" ++ r.id

/-- The `fingerprint` entry point (lines 276-296): reject a copy number
outside `uint8_t` range with `std::invalid_argument`, otherwise build the
OBJREF from the four fields and return its fingerprint. -/
def fingerprint (ty id : String) (org copy : Int) : Except String String :=
  if 255 < copy then .error "Invalid argument, copy out of range"
  else if copy < 0 then .error "Invalid argument, copy out of range"
  else .ok (objrefFingerprintS ⟨ty, org, copy.toNat, id⟩)

/-! Helper lemmas shared by the claim theorems. -/

theorem getD_set_self {α : Type} (l : List α) (i : Nat) (x d : α)
    (h : i < l.length) : (l.set i x).getD i d = x := by
  rw [List.getD_eq_getD_get?, List.get?_eq_getElem?,
      List.getElem?_set_eq_of_lt x h]
  rfl

theorem getD_set_other {α : Type} (l : List α) (i j : Nat) (x d : α)
    (h : i ≠ j) : (l.set i x).getD j d = l.getD j d := by
  rw [List.getD_eq_getD_get?, List.get?_eq_getElem?,
      List.getElem?_set_ne h, List.getD_eq_getD_get?, List.get?_eq_getElem?]

theorem foldl_applyHeapOp_warnings (ops : List HeapOp) (st : DecSt) :
    (ops.foldl applyHeapOp st).warnings = st.warnings := by
  induction ops generalizing st with
  | nil => rfl
  | cons a rest ih =>
    refine (ih (applyHeapOp st a)).trans ?_
    cases a <;> rfl

theorem applyRec_warnings (st : DecSt) (o : RecOut) :
    (applyRec st o).warnings = st.warnings :=
  foldl_applyHeapOp_warnings o.heap st

theorem decodeRow_split (pre fmt post : List FmtCode) (data : List Nat)
    (ptr : Nat) :
    (∃ e, (decodeRow pre fmt post data ptr).err = some e ∧
          (decodeRow pre fmt post data ptr).rows = []) ∨
    (∃ s, (decodeRow pre fmt post data ptr).rows = [s] ∧
          (decodeRow pre fmt post data ptr).newExpected =
            some ((uvariValN data ptr : Int) + 1)) := by
  simp only [decodeRow]
  by_cases h1 : data.length < ptr + uvariLen (rd data ptr) +
      (packflenSrc pre data (ptr + uvariLen (rd data ptr))).1
  · rw [if_pos h1]; exact Or.inl ⟨_, rfl, rfl⟩
  · rw [if_neg h1]
    cases herr : (decodeFields fmt data (ptr + uvariLen (rd data ptr) +
        (packflenSrc pre data (ptr + uvariLen (rd data ptr))).1)).err with
    | some e => exact Or.inl ⟨_, rfl, rfl⟩
    | none =>
      by_cases h2 : data.length <
          (decodeFields fmt data (ptr + uvariLen (rd data ptr) +
            (packflenSrc pre data (ptr + uvariLen (rd data ptr))).1)).ptr +
          (packflenSrc post data
            (decodeFields fmt data (ptr + uvariLen (rd data ptr) +
              (packflenSrc pre data (ptr + uvariLen (rd data ptr))).1)).ptr).1
      · rw [if_pos h2]; exact Or.inr ⟨_, rfl, rfl⟩
      · rw [if_neg h2]; exact Or.inr ⟨_, rfl, rfl⟩

theorem decodeRow_rows_of_err_none (pre fmt post : List FmtCode)
    (data : List Nat) (ptr : Nat)
    (h : (decodeRow pre fmt post data ptr).err = none) :
    ∃ s, (decodeRow pre fmt post data ptr).rows = [s] := by
  rcases decodeRow_split pre fmt post data ptr with ⟨e, he, _⟩ | ⟨s, hs, _⟩
  · rw [h] at he; exact absurd he (by simp)
  · exact ⟨s, hs⟩

theorem decodeRow_rows_le_one (pre fmt post : List FmtCode)
    (data : List Nat) (ptr : Nat) :
    (decodeRow pre fmt post data ptr).rows.length ≤ 1 := by
  rcases decodeRow_split pre fmt post data ptr with ⟨e, _, hr⟩ | ⟨s, hr, _⟩ <;>
    simp [hr]

theorem rowLoop_rows_of_ge (pre fmt post : List FmtCode) (data : List Nat)
    (fuel ptr : Nat) (h : ¬ ptr < data.length) :
    (rowLoop pre fmt post data fuel ptr).rows = [] := by
  cases fuel with
  | zero => rfl
  | succ n => simp only [rowLoop]; rw [if_neg h]

/-- The row loop never decodes more than one row from a record: after a
completed row the cursor must equal the record's end for the loop to
continue, and then the next iteration finds the record exhausted. -/
theorem rowLoop_rows_le_one (pre fmt post : List FmtCode) (data : List Nat)
    (fuel ptr : Nat) :
    (rowLoop pre fmt post data fuel ptr).rows.length ≤ 1 := by
  cases fuel with
  | zero => simp [rowLoop]
  | succ n =>
    simp only [rowLoop]
    split
    · cases herr : (decodeRow pre fmt post data ptr).err with
      | some e => simpa using decodeRow_rows_le_one pre fmt post data ptr
      | none =>
        simp only
        split
        · simpa using decodeRow_rows_le_one pre fmt post data ptr
        · rename_i hptr
          have hend : ¬ (decodeRow pre fmt post data ptr).ptr < data.length := by
            omega
          rw [rowLoop_rows_of_ge pre fmt post data n _ hend]
          simpa using decodeRow_rows_le_one pre fmt post data ptr
    · simp

/-! Claim theorems. -/

/-- C10: the fingerprint entry point throws an invalid-argument error
exactly when `copy` lies outside `[0, 255]`, and otherwise returns the
fingerprint of the OBJREF built from the four fields. -/
theorem fingerprint_copy_range (ty id : String) (org copy : Int) :
    ((∃ m, fingerprint ty id org copy = .error m) ↔ (copy < 0 ∨ 255 < copy)) ∧
    (¬(copy < 0 ∨ 255 < copy) →
      fingerprint ty id org copy =
        .ok (objrefFingerprintS ⟨ty, org, copy.toNat, id⟩)) := by
  unfold fingerprint
  constructor
  · constructor
    · rintro ⟨m, hm⟩
      by_cases h1 : 255 < copy
      · exact Or.inr h1
      · by_cases h2 : copy < 0
        · exact Or.inl h2
        · rw [if_neg h1, if_neg h2] at hm
          exact absurd hm (by simp)
    · rintro (h | h)
      · exact ⟨_, by rw [if_neg (by omega), if_pos h]⟩
      · exact ⟨_, by rw [if_pos h]⟩
  · intro h
    rw [if_neg (fun hc => h (Or.inr hc)), if_neg (fun hc => h (Or.inl hc))]

/-- Witness for C10 at concrete inputs: an in-range copy returns the
OBJREF fingerprint, out-of-range copies throw. -/
theorem fingerprint_copy_range_witness :
    fingerprint "CHANNEL" "TDEP" 10 3 = .ok "CHANNEL-10-3-TDEP" ∧
    (∃ m, fingerprint "T" "I" 1 256 = .error m) ∧
    (∃ m, fingerprint "T" "I" 1 (-1) = .error m) := by
  refine ⟨?_, ?_, ?_⟩
  · have h := (fingerprint_copy_range "CHANNEL" "TDEP" 10 3).2 (by decide)
    rw [h]; rfl
  · exact (fingerprint_copy_range "T" "I" 1 256).1.mpr (Or.inr (by decide))
  · exact (fingerprint_copy_range "T" "I" 1 (-1)).1.mpr (Or.inl (by decide))

/-- C8: a bounded-identifier or units field decodes a length of at most
255 and that many raw characters, widens each character to a 32-bit code
unit, and zero-pads a destination slot of exactly 255 code units; the
decoded length can never exceed that capacity, so the
identifier-too-long failure case is impossible. -/
theorem ident_fixed_capacity (data : List Nat) (p : Nat) :
    rd data p ≤ 255 ∧
    decodeField .identc data p =
      ⟨none, p + 1 + rd data p,
       some (.inlineChars ((slice data (p + 1) (rd data p)).map widen ++
         List.replicate (255 - rd data p) 0)),
       [], decide (data.length < p + 1 + rd data p)⟩ ∧
    ((slice data (p + 1) (rd data p)).map widen ++
       List.replicate (255 - rd data p) 0).length = 255 ∧
    decodeField .unitsc data p = decodeField .identc data p := by
  have hlen : rd data p ≤ 255 := by
    have : rd data p < 256 := Nat.mod_lt _ (by norm_num)
    omega
  refine ⟨hlen, rfl, ?_, rfl⟩
  simp only [List.length_append, List.length_map, List.length_replicate,
    slice, List.length_range]
  omega

/-- C9: a DTIME field decodes its eight integer components, adds the
year-origin bias (1900) to the year, scales the millisecond component by
1000 to microseconds, and builds a timestamp that has no timezone field;
two byte spans that agree on all components except the timezone nibble
produce identical slot values. -/
theorem dtime_components (data : List Nat) (p : Nat)
    (h : pyDateTimeFromDateAndTime (dlisYear (rd data p)) (rd data (p + 1) % 16)
          (rd data (p + 2)) (rd data (p + 3)) (rd data (p + 4)) (rd data (p + 5))
          ((rd data (p + 6) * 256 + rd data (p + 7)) * 1000) =
        some ⟨1900 + rd data p, rd data (p + 1) % 16, rd data (p + 2),
              rd data (p + 3), rd data (p + 4), rd data (p + 5),
              (rd data (p + 6) * 256 + rd data (p + 7)) * 1000⟩) :
    decodeField .dtimec data p =
      ⟨none, p + 8,
       some (.heapVal (.pyDatetime ⟨1900 + rd data p, rd data (p + 1) % 16,
         rd data (p + 2), rd data (p + 3), rd data (p + 4), rd data (p + 5),
         (rd data (p + 6) * 256 + rd data (p + 7)) * 1000⟩)),
       [.swap (.pyDatetime ⟨1900 + rd data p, rd data (p + 1) % 16,
         rd data (p + 2), rd data (p + 3), rd data (p + 4), rd data (p + 5),
         (rd data (p + 6) * 256 + rd data (p + 7)) * 1000⟩)],
       decide (data.length < p + 8)⟩ ∧
    (∀ data2 p2,
      rd data2 p2 = rd data p →
      rd data2 (p2 + 1) % 16 = rd data (p + 1) % 16 →
      rd data2 (p2 + 2) = rd data (p + 2) →
      rd data2 (p2 + 3) = rd data (p + 3) →
      rd data2 (p2 + 4) = rd data (p + 4) →
      rd data2 (p2 + 5) = rd data (p + 5) →
      rd data2 (p2 + 6) = rd data (p + 6) →
      rd data2 (p2 + 7) = rd data (p + 7) →
      (decodeField .dtimec data2 p2).slot = (decodeField .dtimec data p).slot) := by
  constructor
  · simp only [decodeField, dlisYear] at h ⊢
    rw [h]
  · intro data2 p2 e0 e1 e2 e3 e4 e5 e6 e7
    simp only [decodeField, dlisYear] at h ⊢
    rw [e0, e1, e2, e3, e4, e5, e6, e7, h]

/-- Witness for C9: decoding the bytes `[70, 21, 15, 10, 30, 20, 0, 123]`
yields 1970-05-15 10:30:20.123000 (year 70 + 1900, month = low nibble of
21, microseconds = 123 ms × 1000); changing only the timezone nibble
(21 → 37) gives the same slot value. -/
theorem dtime_components_witness :
    decodeField .dtimec [70, 21, 15, 10, 30, 20, 0, 123] 0 =
      ⟨none, 8, some (.heapVal (.pyDatetime ⟨1970, 5, 15, 10, 30, 20, 123000⟩)),
       [.swap (.pyDatetime ⟨1970, 5, 15, 10, 30, 20, 123000⟩)], false⟩ ∧
    (decodeField .dtimec [70, 37, 15, 10, 30, 20, 0, 123] 0).slot =
      (decodeField .dtimec [70, 21, 15, 10, 30, 20, 0, 123] 0).slot := by
  have h := dtime_components [70, 21, 15, 10, 30, 20, 0, 123] 0 (by decide)
  constructor
  · exact h.1.trans (by decide)
  · exact h.2 [70, 37, 15, 10, 30, 20, 0, 123] 0 (by decide) (by decide)
      (by decide) (by decide) (by decide) (by decide) (by decide) (by decide)

/-- C6 counterexample: an encrypted record aborts with the same
`dl::not_implemented` exception kind (message "encrypted FDATA record")
that the multi-row case uses — there is no distinct encrypted-record
failure kind. -/
theorem encrypted_kind_cex :
    (readFdata [] [.gen .ushortc] [] [⟨[1, 2, 3], true⟩] [0] (initSt [])).2 =
      some (.notImplemented encryptedMsg) ∧
    (recordOut [] [.gen .ushortc] [] ⟨[0, 0, 0, 1, 42, 99], false⟩).err =
      some (.notImplemented multiframeMsg) := by
  decide

/-- C6 amended: an encrypted record aborts immediately through the
`dl::not_implemented` exception (the same kind as the multi-row case,
distinguished only by its message), before any byte of the record is
decoded: the decoder state is returned unchanged. -/
theorem encrypted_aborts (pre fmt post : List FmtCode) (rec : Record)
    (st : DecSt) (h : rec.encrypted = true) :
    recordOut pre fmt post rec =
      ⟨some (.notImplemented encryptedMsg), [], [], false, none⟩ ∧
    (∀ file i rest, file[i]? = some rec →
      readFdata pre fmt post file (i :: rest) st =
        (st, some (.notImplemented encryptedMsg))) := by
  have hrec : recordOut pre fmt post rec =
      ⟨some (.notImplemented encryptedMsg), [], [], false, none⟩ := by
    unfold recordOut
    rw [if_pos h]
  refine ⟨hrec, ?_⟩
  intro file i rest hfile
  have happly : applyRec st ⟨some (.notImplemented encryptedMsg), [], [], false,
      none⟩ = st := by
    simp [applyRec]
  show (match file[i]? with
        | none => (st, some DlError.indexError)
        | some rec =>
            let o := recordOut pre fmt post rec
            let st' := applyRec st o
            match o.err with
            | some e => (st', some e)
            | none => readFdata pre fmt post file rest st') =
      (st, some (.notImplemented encryptedMsg))
  rw [hfile]
  simp only [hrec, happly]

/-- Witness for C6 (amended): concrete encrypted record. -/
theorem encrypted_aborts_witness :
    recordOut [] [.gen .ushortc] [] ⟨[9, 9], true⟩ =
      ⟨some (.notImplemented encryptedMsg), [], [], false, none⟩ ∧
    readFdata [] [.gen .ushortc] [] [⟨[9, 9], true⟩] [0] (initSt []) =
      (initSt [], some (.notImplemented encryptedMsg)) := by
  have h := encrypted_aborts [] [.gen .ushortc] [] ⟨[9, 9], true⟩ (initSt []) rfl
  exact ⟨h.1, h.2 [⟨[9, 9], true⟩] 0 [] rfl⟩

/-- C5 counterexample: a record whose row carries sequence number 5 while
`expected_frameno` is 1 decodes successfully and sets the expectation to
6, but no warning is ever reported: the warnings channel stays empty (the
source's mismatch check has only a TODO comment where the report would
be). -/
theorem sequence_warning_cex :
    (let r := readFdata [] [.gen .ushortc] [] [⟨[0, 0, 0, 5, 7], false⟩] [0]
        (initSt []);
     r.2 = none ∧ r.1.expected_frameno = 6 ∧ r.1.warnings = []) := by
  decide

/-- C5 amended: a sequence-number mismatch never aborts — the row decodes
normally and `expected_frameno` becomes the decoded number plus one — but
no SequenceAnomaly warning is emitted: the decoder never touches the
warnings channel. -/
theorem sequence_mismatch_no_warning (pre fmt post : List FmtCode)
    (data : List Nat) (ptr : Nat)
    (h : (decodeRow pre fmt post data ptr).err = none) :
    (decodeRow pre fmt post data ptr).newExpected =
      some ((uvariValN data ptr : Int) + 1) ∧
    (∀ st o, (applyRec st o).warnings = st.warnings) := by
  refine ⟨?_, fun st o => applyRec_warnings st o⟩
  rcases decodeRow_split pre fmt post data ptr with ⟨e, he, _⟩ | ⟨s, _, hne⟩
  · rw [h] at he; exact absurd he (by simp)
  · exact hne

/-- Witness for C5 (amended) at the concrete mismatching record. -/
theorem sequence_mismatch_no_warning_witness :
    (decodeRow [] [.gen .ushortc] [] [0, 0, 0, 5, 7] 3).newExpected = some 6 ∧
    (applyRec (initSt [])
       (recordOut [] [.gen .ushortc] [] ⟨[0, 0, 0, 5, 7], false⟩)).warnings =
      [] := by
  have h := sequence_mismatch_no_warning [] [.gen .ushortc] [] [0, 0, 0, 5, 7] 3
    (by decide)
  refine ⟨h.1.trans (by decide), h.2 (initSt []) _⟩

/-- Two successive heap-slot writes through the decoder's slot-write
protocol into the same slot: the second write's previous occupant is the
object the first write installed (as happens when the same column of the
same buffer is decoded again from a later record). -/
def overwriteTwice (st : DecSt) (v1 v2 : ObjVal) : DecSt :=
  let st1 := swapPointer st v1
  swapPointer { st1 with occupants := st.objs.length :: st1.occupants } v2

/-- C7: a heap-object slot write releases the reference previously
occupying the slot before installing the new value, so writing the same
slot from two successive records leaves the first value with no live
reference (not leaked: it was released), the second value with exactly
one live reference, and the slot holding the second value. -/
theorem heap_slot_overwrite (st : DecSt) (v1 v2 : ObjVal) (o : Nat)
    (hocc : st.occupants.headD 0 = o)
    (hlen : st.rc.length = st.objs.length)
    (ho : o < st.objs.length)
    (hrc : st.rc.getD o 0 = 1) :
    (overwriteTwice st v1 v2).rc.getD st.objs.length 0 = 0 ∧
    (overwriteTwice st v1 v2).rc.getD (st.objs.length + 1) 0 = 1 ∧
    (overwriteTwice st v1 v2).rc.getD o 0 = 0 ∧
    (overwriteTwice st v1 v2).objs.getD (st.objs.length + 1) .placeholder =
      v2 := by
  have hrc1 : (swapPointer st v1).rc = (st.rc.set o 0) ++ [1] := by
    show (st.rc.set (st.occupants.headD 0)
        (st.rc.getD (st.occupants.headD 0) 0 - 1)) ++ [1] = _
    rw [hocc, hrc]
    norm_num
  have hsetlen : (st.rc.set o 0).length = st.objs.length := by
    rw [List.length_set]; exact hlen
  have hget : (swapPointer st v1).rc.getD st.objs.length 0 = 1 := by
    rw [hrc1, List.getD_append_right _ _ _ _ (le_of_eq hsetlen), hsetlen]
    simp
  have hrc2 : (overwriteTwice st v1 v2).rc =
      ((swapPointer st v1).rc.set st.objs.length 0) ++ [1] := by
    show ((swapPointer st v1).rc.set st.objs.length
        ((swapPointer st v1).rc.getD st.objs.length 0 - 1)) ++ [1] = _
    rw [hget]
    norm_num
  have hlen1 : (swapPointer st v1).rc.length = st.objs.length + 1 := by
    rw [hrc1, List.length_append, hsetlen]
    rfl
  have hobjs2 : (overwriteTwice st v1 v2).objs =
      (st.objs ++ [v1]) ++ [v2] := rfl
  refine ⟨?_, ?_, ?_, ?_⟩
  · rw [hrc2, List.getD_append _ _ _ _ (by rw [List.length_set, hlen1]; omega)]
    exact getD_set_self _ _ _ _ (by rw [hlen1]; omega)
  · rw [hrc2, List.getD_append_right _ _ _ _
      (by rw [List.length_set, hlen1])]
    rw [List.length_set, hlen1]
    simp
  · rw [hrc2, List.getD_append _ _ _ _ (by rw [List.length_set, hlen1]; omega),
      getD_set_other _ _ _ _ _ (by omega), hrc1,
      List.getD_append _ _ _ _ (by rw [hsetlen]; exact ho)]
    exact getD_set_self _ _ _ _ (by rw [hlen]; exact ho)
  · rw [hobjs2, List.getD_append_right _ _ _ _
      (by rw [List.length_append]; rfl)]
    simp
/-- Witness for C7: starting from a fresh buffer whose slot holds the
caller's placeholder with one live reference, two successive writes leave
the first installed object at refcount 0, the second at refcount 1, and
the slot holding the second object. -/
theorem heap_slot_overwrite_witness :
    (overwriteTwice (initSt [0]) (.pyStr [65]) (.pyStr [66])).rc.getD 1 0 = 0 ∧
    (overwriteTwice (initSt [0]) (.pyStr [65]) (.pyStr [66])).rc.getD 2 0 = 1 ∧
    (overwriteTwice (initSt [0]) (.pyStr [65]) (.pyStr [66])).rc.getD 0 0 = 0 ∧
    (overwriteTwice (initSt [0]) (.pyStr [65]) (.pyStr [66])).objs.getD 2
      .placeholder = .pyStr [66] :=
  heap_slot_overwrite (initSt [0]) (.pyStr [65]) (.pyStr [66]) 0
    rfl rfl (by decide) rfl

/-- C2 counterexample: with format string FSING1 and a record truncated
inside the field (record body `[0,0,0,1]`: OBNAME prefix, frame number,
then no bytes for the 8-byte FSING1), the field's decode reads past the
record's end (`oob = true`) and its value IS written into the destination
(the row appears in `rows`); the corrupted-record failure is only raised
afterwards, by the post-format span guard — not before the write. -/
theorem field_guard_cex :
    (let r := readFdata [] [.fsing1] [] [⟨[0, 0, 0, 1], false⟩] [0]
        (initSt [0]);
     r.2 = some (.runtimeError corruptMsg) ∧
     r.1.rows = [[.heapVal (.pyTuple [0, 0, 0, 0, 0, 0, 0, 0])]] ∧
     r.1.oob = true) := by
  decide

/-- C2 amended: only fields routed through the generic `dlis_packf` path
are protected: there, a field whose declared size runs past the record's
end fails with the corrupted-record error before anything is written (no
slot value, no heap allocation, cursor unmoved). -/
theorem generic_guard_before_write (g : GenCode) (data : List Nat) (p : Nat)
    (h : data.length < p + (genSrcSize g data p).1) :
    decodeField (.gen g) data p =
      ⟨some (.runtimeError corruptMsg), p, none, [],
       (genSrcSize g data p).2⟩ := by
  simp only [decodeField]
  rw [if_pos h]

/-- Witness for C2 (amended): a 4-byte ULONG field at the end of an empty
span fails with the corrupted-record error and writes nothing. -/
theorem generic_guard_before_write_witness :
    decodeField (.gen .ulong) [] 0 =
      ⟨some (.runtimeError corruptMsg), 0, none, [], false⟩ :=
  (generic_guard_before_write .ulong [] 0 (by decide)).trans (by decide)

/-- C3 counterexample: handing the decoder an empty (zero-byte) record
makes the OBNAME-prefix decode read past the record's end (`oob = true`)
and the operation still completes without any error — so that read was
not preceded by any bounds check. -/
theorem unchecked_read_cex :
    (let r := readFdata [] [.gen .ushortc] [] [⟨[], false⟩] [0] (initSt []);
     r.2 = none ∧ r.1.oob = true) := by
  decide

/-- C3 amended: the bounds check exists exactly at the three
`assert_overflow` sites (pre-format span, generic-path field, post-format
span); on the generic path a successful decode implies the declared size
fits within the record, so that path never reads field bytes past the
end.  The dedicated branches and the prefix/frame-number decodes carry no
such check (see the counterexample). -/
theorem generic_path_in_bounds (g : GenCode) (data : List Nat) (p : Nat)
    (h : (decodeField (.gen g) data p).err = none) :
    p + (genSrcSize g data p).1 ≤ data.length ∧
    (decodeField (.gen g) data p).ptr = p + (genSrcSize g data p).1 := by
  simp only [decodeField] at h ⊢
  by_cases hc : data.length < p + (genSrcSize g data p).1
  · rw [if_pos hc] at h
    exact absurd h (by simp)
  · exact ⟨by omega, by rw [if_neg hc]⟩

/-- Witness for C3 (amended): a 1-byte USHORT field inside a 1-byte span
decodes in bounds. -/
theorem generic_path_in_bounds_witness :
    0 + (genSrcSize .ushortc [5] 0).1 ≤ 1 ∧
    (decodeField (.gen .ushortc) [5] 0).ptr = 0 + (genSrcSize .ushortc [5] 0).1 :=
  generic_path_in_bounds .ushortc [5] 0 (by decide)

/-- C4: when one row decodes cleanly but the cursor stops short of the
record's end, the record fails with the multi-frame `not_implemented`
error; exactly the one already-decoded row was written, the whole
operation aborts with that error, and the row loop never decodes a second
row from any record. -/
theorem residual_bytes_notImplemented (pre fmt post : List FmtCode)
    (rec : Record) (st : DecSt) (p4 : Nat) (rows : List (List PSlot))
    (al : List HeapOp) (ob : Bool) (ne : Option Int)
    (henc : rec.encrypted = false)
    (hin : obnameSize rec.data 0 < rec.data.length)
    (hrow : decodeRow pre fmt post rec.data (obnameSize rec.data 0) =
      ⟨none, p4, rows, al, ob, ne⟩)
    (hne : p4 ≠ rec.data.length) :
    recordOut pre fmt post rec =
      ⟨some (.notImplemented multiframeMsg), rows, al,
       decide (rec.data.length < obnameSize rec.data 0) || ob, ne⟩ ∧
    rows.length = 1 ∧
    (∀ file i rest, file[i]? = some rec →
      (readFdata pre fmt post file (i :: rest) st).2 =
        some (.notImplemented multiframeMsg)) ∧
    (∀ data2 fuel2 p2, (rowLoop pre fmt post data2 fuel2 p2).rows.length ≤ 1) := by
  have hloop : rowLoop pre fmt post rec.data (rec.data.length + 1)
      (obnameSize rec.data 0) =
      ⟨some (.notImplemented multiframeMsg), rows, al, ob, ne⟩ := by
    simp only [rowLoop]
    rw [if_pos hin, hrow]
    show (if p4 ≠ rec.data.length then _ else _) = _
    rw [if_pos hne]
  have hrec : recordOut pre fmt post rec =
      ⟨some (.notImplemented multiframeMsg), rows, al,
       decide (rec.data.length < obnameSize rec.data 0) || ob, ne⟩ := by
    unfold recordOut
    rw [henc]
    simp only [Bool.false_eq_true, if_false, hloop]
  refine ⟨hrec, ?_, ?_, ?_⟩
  · obtain ⟨s, hs⟩ := decodeRow_rows_of_err_none pre fmt post rec.data
      (obnameSize rec.data 0) (by rw [hrow])
    rw [hrow] at hs
    simp only at hs
    rw [hs]
    rfl
  · intro file i rest hfile
    show (match file[i]? with
          | none => (st, some DlError.indexError)
          | some r =>
              let o := recordOut pre fmt post r
              let st' := applyRec st o
              match o.err with
              | some e => (st', some e)
              | none => readFdata pre fmt post file rest st').2 =
        some (.notImplemented multiframeMsg)
    rw [hfile]
    simp only [hrec]
  · intro data2 fuel2 p2
    exact rowLoop_rows_le_one pre fmt post data2 fuel2 p2

/-- Witness for C4: a record with one trailing byte after its single row
fails with the multi-frame error, having written exactly its one row. -/
theorem residual_bytes_notImplemented_witness :
    recordOut [] [.gen .ushortc] [] ⟨[0, 0, 0, 1, 42, 99], false⟩ =
      ⟨some (.notImplemented multiframeMsg),
       [[.inlineBytes .ushortc [42]]], [], false, some 2⟩ ∧
    (readFdata [] [.gen .ushortc] [] [⟨[0, 0, 0, 1, 42, 99], false⟩] [0]
        (initSt [])).2 = some (.notImplemented multiframeMsg) := by
  have h := residual_bytes_notImplemented [] [.gen .ushortc] []
    ⟨[0, 0, 0, 1, 42, 99], false⟩ (initSt []) 5
    [[.inlineBytes .ushortc [42]]] [] false (some 2)
    rfl (by decide) (by decide) (by decide)
  exact ⟨h.1.trans (by decide), h.2.2.1 [⟨[0, 0, 0, 1, 42, 99], false⟩] 0 [] rfl⟩

end Dlisio
